import Mathlib

/-!
Shallow embedding of `scripts/sanity_chk/harness.py` (Zephyr sanitycheck
line-oriented test harness) and proofs about its behaviour.

The Python module defines a base class `Harness` and two variants:
`Console` (regex-pattern matcher over output lines) and `Test`
(structured per-subtest result lines plus two terminal banners).

Modelling decisions:
* `self.state` takes only the values `None`, `"passed"`, `"failed"` in the
  source; it is modelled by the inductive type `Verdict`.
* Python dictionaries (`self.tests`, and the `OrderedDict` `self.matches`)
  are modelled by insertion-ordered association lists.  `setKey` mirrors
  dict assignment (overwrite in place, else append); `self.matches` is only
  ever extended behind a `not r in self.matches` guard, so plain append
  suffices there.
* Compiled regular expressions are modelled by their source strings
  together with a match oracle `μ : String → String → Bool`;
  `μ r line` stands for `bool(re.compile(r).search(line))`.  Compilation is
  deterministic in the source string, so two compilations of the same
  string always agree, which is all the proofs use.  The fixed module-level
  regex `result_re`, used with the anchored `re.match`, is implemented
  concretely as `parseResult`.
* Python's substring test `needle in line` is `containsSub line needle`.
-/

/-- Verdict of a harness: `self.state` is `None` (running), `"passed"` or
`"failed"` in the source. -/
inductive Verdict where
  | running
  | passed
  | failed
deriving DecidableEq, Repr

/-- Substring occurrence on character lists: `listInfix n l` is true iff the
list `n` occurs contiguously inside `l`. -/
def listInfix (needle : List Char) : List Char → Bool
  | [] => needle.isEmpty
  | c :: rest => needle.isPrefixOf (c :: rest) || listInfix needle rest

/-- Python's `needle in line` substring test. -/
def containsSub (line needle : String) : Bool :=
  listInfix needle.data line.data

/-- Membership of a key in an association list (Python `k in d`). -/
def keyMem (m : List (String × String)) (k : String) : Bool :=
  m.any (fun p => p.1 == k)

/-- Python dict assignment `d[k] = v`: overwrite the entry in place when the
key is present, else append (dicts preserve insertion order). -/
def setKey : List (String × String) → String → String → List (String × String)
  | [], k, v => [(k, v)]
  | (a, b) :: t, k, v => if a == k then (k, v) :: t else (a, b) :: setKey t k v

/-- Keys of an association list, in order. -/
def keys (m : List (String × String)) : List String :=
  m.map Prod.fst

/-- The state of one harness object: every instance attribute assigned in
`Harness.__init__`, plus the attributes `pattern` / `patterns` that
`Console.configure` adds.  Configuration attributes and run state live on
the same object, exactly as in the Python class. -/
structure Harness where
  state : Verdict
  typ : Option String
  regex : List String
  matched : List (String × String)
  ordered : Bool
  rep : Nat
  tests : List (String × String)
  id : String
  fail_on_fault : Bool
  fault : Bool
  capture_coverage : Bool
  next_pattern : Nat
  pattern : Option String
  patterns : List String
deriving Repr, DecidableEq

/-- `Harness.__init__`: `self.rep` models `self.repeat`; `self.pattern` and
`self.patterns` do not exist yet in Python, modelled as `none` / `[]`. -/
def Harness.init : Harness :=
  { state := .running
    typ := none
    regex := []
    matched := []
    ordered := true
    rep := 1
    tests := []
    id := ""
    fail_on_fault := true
    fault := false
    capture_coverage := false
    next_pattern := 0
    pattern := none
    patterns := [] }

/-- The `instance.test.harness_config` dictionary: each key is optional,
`config.get(key, default)` is modelled with `Option.getD` at use sites. -/
structure TestConfig where
  typ : Option String
  regex : Option (List String)
  rep : Option Nat
  ordered : Option Bool

/-- The parts of `instance.test` that `configure` reads. -/
structure TestInstance where
  id : String
  tags : List String
  harness_config : Option TestConfig

def Harness.GCOV_START : String := "GCOV_COVERAGE_DUMP_START"
def Harness.GCOV_END : String := "GCOV_COVERAGE_DUMP_END"
def Harness.FAULT : String := "ZEPHYR FATAL ERROR"

/-- `Harness.configure`: read id and tags, force `fail_on_fault` off when the
`ignore_faults` tag is present, and merge the optional config dictionary
with the documented defaults. -/
def Harness.configure (h : Harness) (inst : TestInstance) : Harness :=
  let h1 := { h with id := inst.id }
  let h2 :=
    if inst.tags.contains "ignore_faults" then
      { h1 with fail_on_fault := false }
    else h1
  match inst.harness_config with
  | some c =>
      { h2 with
        typ := c.typ
        regex := c.regex.getD []
        rep := c.rep.getD 1
        ordered := c.ordered.getD true }
  | none => h2

/-- `Console.configure`: after the base configure, compile `regex[0]` in
one-line mode (Python raises `IndexError` when the list is empty, modelled
as `none`), or compile every pattern in order in multi-line mode.  A
compiled pattern is modelled by its source string. -/
def Console.configure (h : Harness) (inst : TestInstance) : Option Harness :=
  if (Harness.configure h inst).typ = some "one_line" then
    match (Harness.configure h inst).regex with
    | [] => none
    | r :: _ => some { Harness.configure h inst with pattern := some r }
  else if (Harness.configure h inst).typ = some "multi_line" then
    some { Harness.configure h inst with patterns := (Harness.configure h inst).regex }
  else
    some (Harness.configure h inst)

/-- The unordered multi-line loop body of `Console.handle`:
`for i, pattern in enumerate(self.patterns): r = self.regex[i];
if pattern.search(line) and not r in self.matches: self.matches[r] = line`.
The first argument of each pair is the compiled pattern searched, the
second the `regex[i]` source string used as the dictionary key. -/
def unorderedInsert (μ : String → String → Bool) (line : String) :
    List (String × String) → List (String × String) → List (String × String)
  | ms, [] => ms
  | ms, pr :: rest =>
      unorderedInsert μ line
        (if μ pr.1 line && !(keyMem ms pr.2) then ms ++ [(pr.2, line)] else ms)
        rest

/-- Step 1 of `Console.handle`: the mode dispatch on `self.type`. -/
def consoleStep (μ : String → String → Bool) (h : Harness) (line : String) : Harness :=
  if h.typ = some "one_line" then
    match h.pattern with
    | some p => if μ p line then { h with state := .passed } else h
    | none => h
  else if h.typ = some "multi_line" then
    if h.ordered then
      if h.next_pattern < h.patterns.length
          && μ (h.patterns.getD h.next_pattern "") line then
        if h.next_pattern + 1 ≥ h.patterns.length then
          { h with next_pattern := h.next_pattern + 1, state := .passed }
        else
          { h with next_pattern := h.next_pattern + 1 }
      else h
    else
      if (unorderedInsert μ line h.matched (h.patterns.zip h.regex)).length
          = h.regex.length then
        { h with
          matched := unorderedInsert μ line h.matched (h.patterns.zip h.regex)
          state := .passed }
      else
        { h with
          matched := unorderedInsert μ line h.matched (h.patterns.zip h.regex) }
  else h

/-- The fault scan shared by both `handle` methods:
`if self.fail_on_fault: if self.FAULT in line: self.fault = True`. -/
def faultStep (h : Harness) (line : String) : Harness :=
  if h.fail_on_fault && containsSub line Harness.FAULT then
    { h with fault := true }
  else h

/-- The coverage-marker scan shared by both `handle` methods. -/
def covStep (h : Harness) (line : String) : Harness :=
  if containsSub line Harness.GCOV_START then
    { h with capture_coverage := true }
  else if containsSub line Harness.GCOV_END then
    { h with capture_coverage := false }
  else h

/-- The unconditional results-table write at the end of `Console.handle`:
`self.tests[self.id] = "PASS" if self.state == "passed" else "FAIL"`. -/
def reportStep (h : Harness) : Harness :=
  if h.state = .passed then
    { h with tests := setKey h.tests h.id "PASS" }
  else
    { h with tests := setKey h.tests h.id "FAIL" }

/-- `Console.handle(line)`: mode dispatch, fault scan, coverage scan, then
the unconditional results-table write, in source order.  `μ` is the match
oracle interpreting the compiled patterns. -/
def Console.handle (μ : String → String → Bool) (h : Harness) (line : String) : Harness :=
  reportStep (covStep (faultStep (consoleStep μ h line) line) line)

def Test.RUN_PASSED : String := "PROJECT EXECUTION SUCCESSFUL"
def Test.RUN_FAILED : String := "PROJECT EXECUTION FAILED"

/-- The module-level regex `result_re = re.compile("(PASS|FAIL|SKIP) - (test_)?(.*)")`
used with the start-anchored `re.match`.  On success, returns group 1 (the
result literal) and group 3 (the subtest name).  The greedy optional group
`(test_)?` strips one leading `test_`; `.` does not match a newline, so
group 3 stops at the first newline character. -/
def parseResult (line : String) : Option (String × String) :=
  let cs := line.data
  let tryRes := fun (lit : String) =>
    if (lit ++ " - ").data.isPrefixOf cs then
      let rest := cs.drop 7
      let rest2 := if "test_".data.isPrefixOf rest then rest.drop 5 else rest
      some (lit, String.mk (rest2.takeWhile (fun c => c ≠ '\n')))
    else none
  match tryRes "PASS" with
  | some r => some r
  | none =>
    match tryRes "FAIL" with
    | some r => some r
    | none => tryRes "SKIP"

/-- Step 1 of `Test.handle`: `match = result_re.match(line)` and, on a match,
`self.tests["{}.{}".format(self.id, match.group(3))] = match.group(1)`. -/
def resultStep (h : Harness) (line : String) : Harness :=
  match parseResult line with
  | some (res, name) =>
      { h with tests := setKey h.tests (h.id ++ "." ++ name) res }
  | none => h

/-- The two banner checks of `Test.handle`, in source order: the
run-succeeded banner sets passed unless a fault was already recorded, then
the run-failed banner unconditionally sets failed. -/
def bannerStep (h : Harness) (line : String) : Harness :=
  let g :=
    if containsSub line Test.RUN_PASSED then
      if h.fault then { h with state := .failed } else { h with state := .passed }
    else h
  if containsSub line Test.RUN_FAILED then { g with state := .failed } else g

/-- `Test.handle(line)`: result-line parse, banners, fault scan, coverage
scan, in source order.  There is no results-table write for the id itself. -/
def Test.handle (h : Harness) (line : String) : Harness :=
  covStep (faultStep (bannerStep (resultStep h line) line) line) line

/-- Substring-containment match oracle: for a pattern string without regex
metacharacters, `re.search` is exactly substring containment, so this is a
legitimate concrete instantiation of `μ` used in witnesses. -/
def litMatch (p line : String) : Bool :=
  containsSub line p

/-- A console harness configured for ordered multi-line matching on the
pattern list `["A", "B"]` (the state `Console.configure` produces for the
descriptor `{type: multi_line, regex: [A, B], ordered: true}`). -/
def hOrderedAB : Harness :=
  { Harness.init with
    typ := some "multi_line"
    regex := ["A", "B"]
    patterns := ["A", "B"]
    id := "t" }

/-- A console harness configured for unordered multi-line matching on the
pattern list `["A", "B"]`. -/
def hUnAB : Harness :=
  { Harness.init with
    typ := some "multi_line"
    ordered := false
    regex := ["A", "B"]
    patterns := ["A", "B"]
    id := "t" }

/-- A console harness configured for unordered multi-line matching whose
regex list contains the same source string twice. -/
def hDupAA : Harness :=
  { Harness.init with
    typ := some "multi_line"
    ordered := false
    regex := ["A", "A"]
    patterns := ["A", "A"]
    id := "t" }

/-! ### Field-preservation lemmas for the individual steps -/

@[simp] lemma faultStep_state (h : Harness) (line : String) :
    (faultStep h line).state = h.state := by
  unfold faultStep; split <;> rfl

@[simp] lemma faultStep_tests (h : Harness) (line : String) :
    (faultStep h line).tests = h.tests := by
  unfold faultStep; split <;> rfl

@[simp] lemma faultStep_matched (h : Harness) (line : String) :
    (faultStep h line).matched = h.matched := by
  unfold faultStep; split <;> rfl

@[simp] lemma faultStep_next_pattern (h : Harness) (line : String) :
    (faultStep h line).next_pattern = h.next_pattern := by
  unfold faultStep; split <;> rfl

@[simp] lemma faultStep_id (h : Harness) (line : String) :
    (faultStep h line).id = h.id := by
  unfold faultStep; split <;> rfl

@[simp] lemma faultStep_typ (h : Harness) (line : String) :
    (faultStep h line).typ = h.typ := by
  unfold faultStep; split <;> rfl

@[simp] lemma faultStep_ordered (h : Harness) (line : String) :
    (faultStep h line).ordered = h.ordered := by
  unfold faultStep; split <;> rfl

@[simp] lemma faultStep_patterns (h : Harness) (line : String) :
    (faultStep h line).patterns = h.patterns := by
  unfold faultStep; split <;> rfl

@[simp] lemma faultStep_pattern (h : Harness) (line : String) :
    (faultStep h line).pattern = h.pattern := by
  unfold faultStep; split <;> rfl

@[simp] lemma faultStep_regex (h : Harness) (line : String) :
    (faultStep h line).regex = h.regex := by
  unfold faultStep; split <;> rfl

@[simp] lemma faultStep_fail_on_fault (h : Harness) (line : String) :
    (faultStep h line).fail_on_fault = h.fail_on_fault := by
  unfold faultStep; split <;> rfl

/-- `self.fault` after the fault scan: set exactly when the policy is active
and the fault marker occurs in the line. -/
@[simp] lemma faultStep_fault (h : Harness) (line : String) :
    (faultStep h line).fault
      = (h.fault || (h.fail_on_fault && containsSub line Harness.FAULT)) := by
  by_cases h1 : h.fail_on_fault <;> by_cases h2 : containsSub line Harness.FAULT <;>
    simp [faultStep, h1, h2]

@[simp] lemma covStep_state (h : Harness) (line : String) :
    (covStep h line).state = h.state := by
  unfold covStep; split <;> [rfl; (split <;> rfl)]

@[simp] lemma covStep_tests (h : Harness) (line : String) :
    (covStep h line).tests = h.tests := by
  unfold covStep; split <;> [rfl; (split <;> rfl)]

@[simp] lemma covStep_matched (h : Harness) (line : String) :
    (covStep h line).matched = h.matched := by
  unfold covStep; split <;> [rfl; (split <;> rfl)]

@[simp] lemma covStep_next_pattern (h : Harness) (line : String) :
    (covStep h line).next_pattern = h.next_pattern := by
  unfold covStep; split <;> [rfl; (split <;> rfl)]

@[simp] lemma covStep_id (h : Harness) (line : String) :
    (covStep h line).id = h.id := by
  unfold covStep; split <;> [rfl; (split <;> rfl)]

@[simp] lemma covStep_typ (h : Harness) (line : String) :
    (covStep h line).typ = h.typ := by
  unfold covStep; split <;> [rfl; (split <;> rfl)]

@[simp] lemma covStep_ordered (h : Harness) (line : String) :
    (covStep h line).ordered = h.ordered := by
  unfold covStep; split <;> [rfl; (split <;> rfl)]

@[simp] lemma covStep_patterns (h : Harness) (line : String) :
    (covStep h line).patterns = h.patterns := by
  unfold covStep; split <;> [rfl; (split <;> rfl)]

@[simp] lemma covStep_pattern (h : Harness) (line : String) :
    (covStep h line).pattern = h.pattern := by
  unfold covStep; split <;> [rfl; (split <;> rfl)]

@[simp] lemma covStep_regex (h : Harness) (line : String) :
    (covStep h line).regex = h.regex := by
  unfold covStep; split <;> [rfl; (split <;> rfl)]

@[simp] lemma covStep_fail_on_fault (h : Harness) (line : String) :
    (covStep h line).fail_on_fault = h.fail_on_fault := by
  unfold covStep; split <;> [rfl; (split <;> rfl)]

@[simp] lemma covStep_fault (h : Harness) (line : String) :
    (covStep h line).fault = h.fault := by
  unfold covStep; split <;> [rfl; (split <;> rfl)]

@[simp] lemma reportStep_state (h : Harness) :
    (reportStep h).state = h.state := by
  unfold reportStep; split <;> rfl

@[simp] lemma reportStep_matched (h : Harness) :
    (reportStep h).matched = h.matched := by
  unfold reportStep; split <;> rfl

@[simp] lemma reportStep_next_pattern (h : Harness) :
    (reportStep h).next_pattern = h.next_pattern := by
  unfold reportStep; split <;> rfl

@[simp] lemma reportStep_id (h : Harness) :
    (reportStep h).id = h.id := by
  unfold reportStep; split <;> rfl

@[simp] lemma reportStep_typ (h : Harness) :
    (reportStep h).typ = h.typ := by
  unfold reportStep; split <;> rfl

@[simp] lemma reportStep_ordered (h : Harness) :
    (reportStep h).ordered = h.ordered := by
  unfold reportStep; split <;> rfl

@[simp] lemma reportStep_patterns (h : Harness) :
    (reportStep h).patterns = h.patterns := by
  unfold reportStep; split <;> rfl

@[simp] lemma reportStep_pattern (h : Harness) :
    (reportStep h).pattern = h.pattern := by
  unfold reportStep; split <;> rfl

@[simp] lemma reportStep_regex (h : Harness) :
    (reportStep h).regex = h.regex := by
  unfold reportStep; split <;> rfl

@[simp] lemma reportStep_fail_on_fault (h : Harness) :
    (reportStep h).fail_on_fault = h.fail_on_fault := by
  unfold reportStep; split <;> rfl

@[simp] lemma reportStep_fault (h : Harness) :
    (reportStep h).fault = h.fault := by
  unfold reportStep; split <;> rfl

/-- The results-table write of `Console.handle`, as an equation. -/
@[simp] lemma reportStep_tests (h : Harness) :
    (reportStep h).tests
      = setKey h.tests h.id (if h.state = Verdict.passed then "PASS" else "FAIL") := by
  unfold reportStep
  by_cases hs : h.state = Verdict.passed <;> simp [hs]

@[simp] lemma consoleStep_fault (μ : String → String → Bool) (h : Harness) (line : String) :
    (consoleStep μ h line).fault = h.fault := by
  unfold consoleStep; repeat' split
  all_goals rfl

@[simp] lemma consoleStep_tests (μ : String → String → Bool) (h : Harness) (line : String) :
    (consoleStep μ h line).tests = h.tests := by
  unfold consoleStep; repeat' split
  all_goals rfl

@[simp] lemma consoleStep_id (μ : String → String → Bool) (h : Harness) (line : String) :
    (consoleStep μ h line).id = h.id := by
  unfold consoleStep; repeat' split
  all_goals rfl

@[simp] lemma consoleStep_typ (μ : String → String → Bool) (h : Harness) (line : String) :
    (consoleStep μ h line).typ = h.typ := by
  unfold consoleStep; repeat' split
  all_goals rfl

@[simp] lemma consoleStep_ordered (μ : String → String → Bool) (h : Harness) (line : String) :
    (consoleStep μ h line).ordered = h.ordered := by
  unfold consoleStep; repeat' split
  all_goals rfl

@[simp] lemma consoleStep_patterns (μ : String → String → Bool) (h : Harness) (line : String) :
    (consoleStep μ h line).patterns = h.patterns := by
  unfold consoleStep; repeat' split
  all_goals rfl

@[simp] lemma consoleStep_pattern_field (μ : String → String → Bool) (h : Harness) (line : String) :
    (consoleStep μ h line).pattern = h.pattern := by
  unfold consoleStep; repeat' split
  all_goals rfl

@[simp] lemma consoleStep_regex (μ : String → String → Bool) (h : Harness) (line : String) :
    (consoleStep μ h line).regex = h.regex := by
  unfold consoleStep; repeat' split
  all_goals rfl

@[simp] lemma consoleStep_fail_on_fault (μ : String → String → Bool) (h : Harness) (line : String) :
    (consoleStep μ h line).fail_on_fault = h.fail_on_fault := by
  unfold consoleStep; repeat' split
  all_goals rfl

@[simp] lemma resultStep_state (h : Harness) (line : String) :
    (resultStep h line).state = h.state := by
  unfold resultStep; repeat' split
  all_goals rfl

@[simp] lemma resultStep_fault (h : Harness) (line : String) :
    (resultStep h line).fault = h.fault := by
  unfold resultStep; repeat' split
  all_goals rfl

@[simp] lemma resultStep_id (h : Harness) (line : String) :
    (resultStep h line).id = h.id := by
  unfold resultStep; repeat' split
  all_goals rfl

@[simp] lemma resultStep_fail_on_fault (h : Harness) (line : String) :
    (resultStep h line).fail_on_fault = h.fail_on_fault := by
  unfold resultStep; repeat' split
  all_goals rfl

@[simp] lemma resultStep_typ (h : Harness) (line : String) :
    (resultStep h line).typ = h.typ := by
  unfold resultStep; repeat' split
  all_goals rfl

/-- The structured result-line write, as an equation. -/
lemma resultStep_tests_of_parse (h : Harness) (line res name : String)
    (hp : parseResult line = some (res, name)) :
    (resultStep h line).tests = setKey h.tests (h.id ++ "." ++ name) res := by
  unfold resultStep
  rw [hp]

lemma resultStep_tests_of_none (h : Harness) (line : String)
    (hp : parseResult line = none) :
    (resultStep h line).tests = h.tests := by
  unfold resultStep
  rw [hp]

@[simp] lemma bannerStep_fault (h : Harness) (line : String) :
    (bannerStep h line).fault = h.fault := by
  unfold bannerStep; repeat' split
  all_goals rfl

@[simp] lemma bannerStep_tests (h : Harness) (line : String) :
    (bannerStep h line).tests = h.tests := by
  unfold bannerStep; repeat' split
  all_goals rfl

@[simp] lemma bannerStep_id (h : Harness) (line : String) :
    (bannerStep h line).id = h.id := by
  unfold bannerStep; repeat' split
  all_goals rfl

@[simp] lemma bannerStep_fail_on_fault (h : Harness) (line : String) :
    (bannerStep h line).fail_on_fault = h.fail_on_fault := by
  unfold bannerStep; repeat' split
  all_goals rfl

@[simp] lemma bannerStep_typ (h : Harness) (line : String) :
    (bannerStep h line).typ = h.typ := by
  unfold bannerStep; repeat' split
  all_goals rfl

/-- Verdict after the two banner checks of `Test.handle`, in source order:
the run-failed banner always wins within one call; otherwise the
run-succeeded banner decides by the fault flag recorded so far. -/
lemma bannerStep_state (h : Harness) (line : String) :
    (bannerStep h line).state
      = (if containsSub line Test.RUN_FAILED then Verdict.failed
         else if containsSub line Test.RUN_PASSED then
           (if h.fault then Verdict.failed else Verdict.passed)
         else h.state) := by
  by_cases hRF : containsSub line Test.RUN_FAILED <;>
    by_cases hRP : containsSub line Test.RUN_PASSED <;>
      by_cases hF : h.fault <;>
        simp [bannerStep, hRF, hRP, hF]

/-! ### Composition lemmas for the two handle methods -/

@[simp] lemma consoleHandle_state (μ : String → String → Bool) (h : Harness) (line : String) :
    (Console.handle μ h line).state = (consoleStep μ h line).state := by
  simp [Console.handle]

@[simp] lemma consoleHandle_typ (μ : String → String → Bool) (h : Harness) (line : String) :
    (Console.handle μ h line).typ = h.typ := by
  simp [Console.handle]

@[simp] lemma consoleHandle_ordered (μ : String → String → Bool) (h : Harness) (line : String) :
    (Console.handle μ h line).ordered = h.ordered := by
  simp [Console.handle]

@[simp] lemma consoleHandle_patterns (μ : String → String → Bool) (h : Harness) (line : String) :
    (Console.handle μ h line).patterns = h.patterns := by
  simp [Console.handle]

@[simp] lemma consoleHandle_pattern_field (μ : String → String → Bool) (h : Harness) (line : String) :
    (Console.handle μ h line).pattern = h.pattern := by
  simp [Console.handle]

@[simp] lemma consoleHandle_regex (μ : String → String → Bool) (h : Harness) (line : String) :
    (Console.handle μ h line).regex = h.regex := by
  simp [Console.handle]

@[simp] lemma consoleHandle_id (μ : String → String → Bool) (h : Harness) (line : String) :
    (Console.handle μ h line).id = h.id := by
  simp [Console.handle]

@[simp] lemma consoleHandle_fail_on_fault (μ : String → String → Bool) (h : Harness) (line : String) :
    (Console.handle μ h line).fail_on_fault = h.fail_on_fault := by
  simp [Console.handle]

@[simp] lemma consoleHandle_fault (μ : String → String → Bool) (h : Harness) (line : String) :
    (Console.handle μ h line).fault
      = (h.fault || (h.fail_on_fault && containsSub line Harness.FAULT)) := by
  simp [Console.handle]

@[simp] lemma consoleHandle_next_pattern (μ : String → String → Bool) (h : Harness) (line : String) :
    (Console.handle μ h line).next_pattern = (consoleStep μ h line).next_pattern := by
  simp [Console.handle]

@[simp] lemma consoleHandle_matched (μ : String → String → Bool) (h : Harness) (line : String) :
    (Console.handle μ h line).matched = (consoleStep μ h line).matched := by
  simp [Console.handle]

/-- The results-table write of `Console.handle`: on every call the entry for
the harness id is rewritten from the just-updated verdict. -/
lemma consoleHandle_tests (μ : String → String → Bool) (h : Harness) (line : String) :
    (Console.handle μ h line).tests
      = setKey h.tests h.id
          (if (consoleStep μ h line).state = Verdict.passed then "PASS" else "FAIL") := by
  simp [Console.handle]

@[simp] lemma testHandle_state (h : Harness) (line : String) :
    (Test.handle h line).state
      = (if containsSub line Test.RUN_FAILED then Verdict.failed
         else if containsSub line Test.RUN_PASSED then
           (if h.fault then Verdict.failed else Verdict.passed)
         else h.state) := by
  simp [Test.handle, bannerStep_state]

@[simp] lemma testHandle_fault (h : Harness) (line : String) :
    (Test.handle h line).fault
      = (h.fault || (h.fail_on_fault && containsSub line Harness.FAULT)) := by
  simp [Test.handle]

@[simp] lemma testHandle_fail_on_fault (h : Harness) (line : String) :
    (Test.handle h line).fail_on_fault = h.fail_on_fault := by
  simp [Test.handle]

@[simp] lemma testHandle_id (h : Harness) (line : String) :
    (Test.handle h line).id = h.id := by
  simp [Test.handle]

@[simp] lemma testHandle_tests (h : Harness) (line : String) :
    (Test.handle h line).tests = (resultStep h line).tests := by
  simp [Test.handle]

/-! ### Association-list lemmas -/

lemma keyMem_iff (m : List (String × String)) (k : String) :
    keyMem m k = true ↔ k ∈ keys m := by
  simp [keyMem, keys, List.any_eq_true, List.mem_map, beq_iff_eq]

lemma keys_append (m l : List (String × String)) :
    keys (m ++ l) = keys m ++ keys l := by
  simp [keys]

lemma lookup_setKey_self (m : List (String × String)) (k v : String) :
    List.lookup k (setKey m k v) = some v := by
  induction m with
  | nil => simp [setKey, List.lookup]
  | cons p t ih =>
      obtain ⟨a, b⟩ := p
      by_cases hak : a = k
      · simp [setKey, hak, List.lookup]
      · simp only [setKey, beq_iff_eq, if_neg hak, List.lookup]
        have : (k == a) = false := by
          simp [beq_iff_eq]
          exact fun he => hak he.symm
        simp [this, ih]

lemma lookup_append_left (m l : List (String × String)) (k : String)
    (hk : k ∈ keys m) :
    List.lookup k (m ++ l) = List.lookup k m := by
  induction m with
  | nil => simp [keys] at hk
  | cons p t ih =>
      obtain ⟨a, b⟩ := p
      by_cases hak : k = a
      · simp [List.lookup, hak]
      · have hkt : k ∈ keys t := by
          simp [keys] at hk
          rcases hk with h1 | h1
          · exact absurd h1 hak
          · simpa [keys] using h1
        have : (k == a) = false := by simp [beq_iff_eq, hak]
        simp [List.lookup, this, ih hkt]

lemma lookup_append_not_mem (m : List (String × String)) (k v : String)
    (hk : ¬ k ∈ keys m) :
    List.lookup k (m ++ [(k, v)]) = some v := by
  induction m with
  | nil => simp [List.lookup]
  | cons p t ih =>
      obtain ⟨a, b⟩ := p
      have hak : ¬ (k = a) := by
        intro he
        exact hk (by simp [keys, he])
      have hkt : ¬ k ∈ keys t := by
        intro he
        exact hk (by simp [keys] at he ⊢; right; simpa [keys] using he)
      have : (k == a) = false := by simp [beq_iff_eq, hak]
      simp [List.lookup, this, ih hkt]

/-! ### Lemmas about the unordered multi-line loop -/

lemma ui_keys_mono (μ : String → String → Bool) (line : String)
    (l : List (String × String)) :
    ∀ ms k, k ∈ keys ms → k ∈ keys (unorderedInsert μ line ms l) := by
  induction l with
  | nil => intro ms k hk; simpa [unorderedInsert] using hk
  | cons pr rest ih =>
      intro ms k hk
      simp only [unorderedInsert]
      apply ih
      split
      · rw [keys_append]
        exact List.mem_append_left _ hk
      · exact hk

lemma ui_keys_sub (μ : String → String → Bool) (line : String)
    (l : List (String × String)) :
    ∀ ms k, k ∈ keys (unorderedInsert μ line ms l) →
      k ∈ keys ms ∨ k ∈ l.map Prod.snd := by
  induction l with
  | nil => intro ms k hk; left; simpa [unorderedInsert] using hk
  | cons pr rest ih =>
      intro ms k hk
      simp only [unorderedInsert] at hk
      rcases ih _ k hk with h1 | h1
      · revert h1
        split
        · intro h1
          rw [keys_append] at h1
          rcases List.mem_append.mp h1 with h2 | h2
          · exact Or.inl h2
          · right
            simp [keys] at h2
            simp [h2]
        · intro h1; exact Or.inl h1
      · right
        simp only [List.map_cons, List.mem_cons]
        exact Or.inr h1

lemma ui_keys_nodup (μ : String → String → Bool) (line : String)
    (l : List (String × String)) :
    ∀ ms, (keys ms).Nodup → (keys (unorderedInsert μ line ms l)).Nodup := by
  induction l with
  | nil => intro ms h; simpa [unorderedInsert] using h
  | cons pr rest ih =>
      intro ms hnd
      simp only [unorderedInsert]
      apply ih
      split
      · rename_i hc
        have hmem : ¬ pr.2 ∈ keys ms := by
          intro hin
          have := (keyMem_iff ms pr.2).mpr hin
          simp [this] at hc
        rw [keys_append]
        apply List.Nodup.append hnd (by simp [keys])
        intro a ha hb
        simp [keys] at hb
        exact hmem (hb ▸ ha)
      · exact hnd

lemma ui_lookup_of_mem (μ : String → String → Bool) (line : String)
    (l : List (String × String)) :
    ∀ ms k, k ∈ keys ms →
      List.lookup k (unorderedInsert μ line ms l) = List.lookup k ms := by
  induction l with
  | nil => intro ms k _; simp [unorderedInsert]
  | cons pr rest ih =>
      intro ms k hk
      simp only [unorderedInsert]
      split
      · rw [ih _ k (by rw [keys_append]; exact List.mem_append_left _ hk)]
        exact lookup_append_left ms [(pr.2, line)] k hk
      · exact ih _ k hk

lemma ui_lookup_insert (μ : String → String → Bool) (line : String)
    (l : List (String × String)) :
    ∀ ms p k, (p, k) ∈ l → μ p line = true → ¬ k ∈ keys ms →
      List.lookup k (unorderedInsert μ line ms l) = some line := by
  induction l with
  | nil => intro ms p k hk; simp at hk
  | cons pr rest ih =>
      intro ms p k hmem hμ hnk
      rcases List.mem_cons.mp hmem with he | hrest
      · -- the pair at the head inserts the key now
        have h2 : pr.2 = k := by rw [← he]
        have h1 : pr.1 = p := by rw [← he]
        have hkm : keyMem ms pr.2 = false := by
          rw [h2]
          by_cases hb : keyMem ms k = true
          · exact absurd ((keyMem_iff ms k).mp hb) hnk
          · simpa using hb
        simp only [unorderedInsert, h1, hμ, hkm, Bool.not_false, Bool.and_true, if_pos]
        rw [h2]
        have hin : k ∈ keys (ms ++ [(k, line)]) := by
          rw [keys_append]; simp [keys]
        rw [ui_lookup_of_mem μ line rest _ k hin]
        exact lookup_append_not_mem ms k line hnk
      · -- the pair is further down the list
        simp only [unorderedInsert]
        split
        · rename_i hc
          by_cases h2 : pr.2 = k
          · have hin : k ∈ keys (ms ++ [(pr.2, line)]) := by
              rw [keys_append, h2]; simp [keys]
            rw [ui_lookup_of_mem μ line rest _ k hin]
            rw [h2]
            exact lookup_append_not_mem ms k line hnk
          · apply ih _ p k hrest hμ
            intro hin
            rw [keys_append] at hin
            rcases List.mem_append.mp hin with h3 | h3
            · exact hnk h3
            · simp [keys] at h3
              exact h2 h3.symm
        · exact ih _ p k hrest hμ hnk

/-! ### Mode-dispatch characterizations of `consoleStep` -/

lemma consoleStep_one_line (μ : String → String → Bool) (h : Harness) (line : String)
    (ht : h.typ = some "one_line") :
    consoleStep μ h line
      = match h.pattern with
        | some p => if μ p line then { h with state := .passed } else h
        | none => h := by
  unfold consoleStep
  rw [if_pos ht]

lemma consoleStep_multi_ordered (μ : String → String → Bool) (h : Harness) (line : String)
    (ht : h.typ = some "multi_line") (ho : h.ordered = true) :
    consoleStep μ h line
      = if h.next_pattern < h.patterns.length
            && μ (h.patterns.getD h.next_pattern "") line then
          (if h.next_pattern + 1 ≥ h.patterns.length then
            { h with next_pattern := h.next_pattern + 1, state := .passed }
          else
            { h with next_pattern := h.next_pattern + 1 })
        else h := by
  have hne : ¬ (h.typ = some "one_line") := by rw [ht]; decide
  unfold consoleStep
  rw [if_neg hne, if_pos ht, if_pos ho]

lemma consoleStep_multi_unordered (μ : String → String → Bool) (h : Harness) (line : String)
    (ht : h.typ = some "multi_line") (ho : h.ordered = false) :
    consoleStep μ h line
      = if (unorderedInsert μ line h.matched (h.patterns.zip h.regex)).length
            = h.regex.length then
          { h with
            matched := unorderedInsert μ line h.matched (h.patterns.zip h.regex)
            state := .passed }
        else
          { h with
            matched := unorderedInsert μ line h.matched (h.patterns.zip h.regex) } := by
  have hne : ¬ (h.typ = some "one_line") := by rw [ht]; decide
  have hno : ¬ (h.ordered = true) := by rw [ho]; decide
  unfold consoleStep
  rw [if_neg hne, if_pos ht, if_neg hno]

/-- Every branch of the console mode dispatch either leaves the verdict
unchanged or sets it to passed — it never writes any other value. -/
lemma consoleStep_state_cases (μ : String → String → Bool) (h : Harness) (line : String) :
    (consoleStep μ h line).state = h.state
      ∨ (consoleStep μ h line).state = Verdict.passed := by
  unfold consoleStep
  repeat' split
  all_goals simp

/-! ### Counting lemmas for distinct matched keys -/

lemma nodup_sub_length_lt {l1 l2 : List String}
    (h1 : l1.Nodup) (hsub : l1 ⊆ l2) (h2 : ¬ l2.Nodup) :
    l1.length < l2.length := by
  have hd : l1 ⊆ l2.dedup := fun x hx => List.mem_dedup.mpr (hsub hx)
  have hle : l1.length ≤ l2.dedup.length := (h1.subperm hd).length_le
  have hlt : l2.dedup.length < l2.length := by
    have hs := List.dedup_sublist l2
    rcases Nat.lt_or_ge l2.dedup.length l2.length with hlt | hge
    · exact hlt
    · exfalso
      have heq : l2.dedup.length = l2.length := Nat.le_antisymm hs.length_le hge
      have : l2.dedup = l2 := hs.eq_of_length heq
      exact h2 (this ▸ List.nodup_dedup l2)
  exact Nat.lt_of_le_of_lt hle hlt

lemma nodup_length_eq_iff {l1 l2 : List String}
    (h1 : l1.Nodup) (h2 : l2.Nodup) (hsub : l1 ⊆ l2) :
    l1.length = l2.length ↔ ∀ x ∈ l2, x ∈ l1 := by
  constructor
  · intro hlen x hx
    have hperm := (h1.subperm hsub).perm_of_length_le (Nat.le_of_eq hlen.symm)
    exact hperm.mem_iff.mpr hx
  · intro hall
    have hsp1 := (h1.subperm hsub).length_le
    have hsp2 := (h2.subperm (fun x hx => hall x hx)).length_le
    exact Nat.le_antisymm hsp1 hsp2

lemma mem_zip_same {a : String} {l : List String} (h : a ∈ l) :
    (a, a) ∈ l.zip l := by
  induction l with
  | nil => simp at h
  | cons b t ih =>
      rcases List.mem_cons.mp h with he | ht
      · simp [List.zip_cons_cons, he]
      · simp only [List.zip_cons_cons, List.mem_cons]
        exact Or.inr (ih ht)

/-! ### Fault-flag invariance under a disabled fault policy -/

lemma foldl_console_fault_off (μ : String → String → Bool) (lines : List String) :
    ∀ h : Harness, h.fail_on_fault = false → h.fault = false →
      (List.foldl (Console.handle μ) h lines).fault = false := by
  induction lines with
  | nil => intro h _ hf; simpa using hf
  | cons line rest ih =>
      intro h hff hf
      simp only [List.foldl_cons]
      exact ih _ (by simp [hff]) (by simp [hff, hf])

lemma foldl_test_fault_off (lines : List String) :
    ∀ h : Harness, h.fail_on_fault = false → h.fault = false →
      (List.foldl Test.handle h lines).fault = false := by
  induction lines with
  | nil => intro h _ hf; simpa using hf
  | cons line rest ih =>
      intro h hff hf
      simp only [List.foldl_cons]
      exact ih _ (by simp [hff]) (by simp [hff, hf])

/-- The `test_`-stripping rule of `result_re` in general: for any subtest
name without a newline, a line of the form `PASS - test_<name>` parses to
the literal `PASS` and the name with the single `test_` prefix removed. -/
lemma parseResult_strip_general (nm : List Char) (hnl : ∀ c ∈ nm, ¬ c = '\n') :
    parseResult (String.mk
        ('P' :: 'A' :: 'S' :: 'S' :: ' ' :: '-' :: ' ' :: 't' :: 'e' :: 's' :: 't' :: '_' :: nm))
      = some ("PASS", String.mk nm) := by
  have htw : List.takeWhile (fun c => !decide (c = '\n')) nm = nm :=
    List.takeWhile_eq_self_iff.mpr (fun a ha => by simp [hnl a ha])
  simp [parseResult, List.isPrefixOf, htw]

/-! ### Claim theorems -/

/-- C6: every call of the console matcher's handle, after the pattern, fault
and coverage steps, unconditionally writes the results-table entry for the
harness id: `"PASS"` when the verdict is passed at that point and `"FAIL"`
otherwise; in particular a still-running harness and a failed harness
produce the identical entry `"FAIL"`. -/
theorem claim_C6 (μ : String → String → Bool) (h : Harness) (line : String) :
    (Console.handle μ h line).tests
      = setKey h.tests h.id
          (if (Console.handle μ h line).state = Verdict.passed then "PASS" else "FAIL")
    ∧ List.lookup h.id (Console.handle μ h line).tests
        = some (if (Console.handle μ h line).state = Verdict.passed then "PASS" else "FAIL")
    ∧ (Console.handle litMatch { Harness.init with id := "t" } "diag noise").tests
        = [("t", "FAIL")]
    ∧ (Console.handle litMatch { Harness.init with id := "t", state := Verdict.failed }
        "diag noise").tests
        = [("t", "FAIL")] := by
  have h1 : (Console.handle μ h line).tests
      = setKey h.tests h.id
          (if (Console.handle μ h line).state = Verdict.passed then "PASS" else "FAIL") := by
    rw [consoleHandle_state, consoleHandle_tests]
  refine ⟨h1, ?_, by decide, by decide⟩
  rw [h1]
  exact lookup_setKey_self h.tests h.id _

/-- C7: console configuration in single-line mode errors out (modelled as
`none`, for Python's `IndexError` on `self.regex[0]`) when the configured
pattern list is empty, and otherwise succeeds, compiling exactly the first
pattern of the list. -/
theorem claim_C7 (h : Harness) (inst : TestInstance)
    (hone : (Harness.configure h inst).typ = some "one_line") :
    ((Harness.configure h inst).regex = [] → Console.configure h inst = none)
    ∧ (∀ r rs, (Harness.configure h inst).regex = r :: rs →
        Console.configure h inst
          = some { Harness.configure h inst with pattern := some r }) := by
  constructor
  · intro hre
    unfold Console.configure
    rw [if_pos hone, hre]
  · intro r rs hre
    unfold Console.configure
    rw [if_pos hone, hre]

/-- C7 witness: a one-line descriptor with pattern list `["OK"]` configures
successfully and compiles `"OK"`. -/
theorem claim_C7_witness :
    Console.configure Harness.init
        ⟨"t", [], some ⟨some "one_line", some ["OK"], none, none⟩⟩
      = some { Harness.configure Harness.init
                ⟨"t", [], some ⟨some "one_line", some ["OK"], none, none⟩⟩
               with pattern := some "OK" } :=
  (claim_C7 Harness.init ⟨"t", [], some ⟨some "one_line", some ["OK"], none, none⟩⟩
    (by decide)).2 "OK" [] (by decide)

/-- C5: a line matching the structured result grammar writes
`results["<id>.<name>"] = <PASS|FAIL|SKIP literal>` with any optional
leading `test_` stripped from the name, overwriting any prior entry; the
claim's concrete examples included. -/
theorem claim_C5 (h : Harness) (line res name : String)
    (hp : parseResult line = some (res, name)) :
    (Test.handle h line).tests = setKey h.tests (h.id ++ "." ++ name) res
    ∧ List.lookup (h.id ++ "." ++ name) (Test.handle h line).tests = some res
    ∧ (∀ nm : List Char, (∀ c ∈ nm, ¬ c = '\n') →
        parseResult (String.mk
          ('P' :: 'A' :: 'S' :: 'S' :: ' ' :: '-' :: ' ' :: 't' :: 'e' :: 's' :: 't' :: '_' :: nm))
          = some ("PASS", String.mk nm))
    ∧ parseResult "PASS - test_foo" = some ("PASS", "foo")
    ∧ parseResult "FAIL - bar" = some ("FAIL", "bar")
    ∧ List.lookup "suite1.foo"
        (Test.handle { Harness.init with id := "suite1" } "PASS - test_foo").tests
        = some "PASS"
    ∧ List.lookup "suite1.bar"
        (Test.handle { Harness.init with id := "suite1" } "FAIL - bar").tests
        = some "FAIL"
    ∧ List.lookup "suite1.foo"
        (Test.handle
          { Harness.init with id := "suite1", tests := [("suite1.foo", "FAIL")] }
          "PASS - test_foo").tests
        = some "PASS" := by
  have h1 : (Test.handle h line).tests = setKey h.tests (h.id ++ "." ++ name) res := by
    rw [testHandle_tests]
    exact resultStep_tests_of_parse h line res name hp
  refine ⟨h1, ?_, fun nm hnl => parseResult_strip_general nm hnl,
    by decide, by decide, by decide, by decide, by decide⟩
  rw [h1]
  exact lookup_setKey_self h.tests (h.id ++ "." ++ name) res

/-- C5 witness: the structured matcher records `SKIP - test_baz` under the
key `<id>.baz`. -/
theorem claim_C5_witness :
    (Test.handle { Harness.init with id := "s" } "SKIP - test_baz").tests
      = setKey { Harness.init with id := "s" }.tests ("s" ++ "." ++ "baz") "SKIP" :=
  (claim_C5 { Harness.init with id := "s" } "SKIP - test_baz" "SKIP" "baz" (by decide)).1

/-- C2 counterexample: a line that contains the run-succeeded banner but
also the run-failed banner is handled with `faultDetected` false yet yields
verdict failed, not passed — the run-failed check runs after the
run-succeeded check inside the same call and wins. -/
theorem claim_C2_cex :
    containsSub "PROJECT EXECUTION SUCCESSFUL PROJECT EXECUTION FAILED"
        Test.RUN_PASSED = true
    ∧ Harness.init.fault = false
    ∧ (Test.handle Harness.init
        "PROJECT EXECUTION SUCCESSFUL PROJECT EXECUTION FAILED").state
        = Verdict.failed := by decide

/-- C2 (amended): handling a line containing the run-succeeded banner sets
the verdict to failed whenever `faultDetected` is true at that point, and
sets it to passed whenever `faultDetected` is false, provided the line does
not also contain the run-failed banner (which always wins within the same
call); the claim's two concrete scenarios hold as stated. -/
theorem claim_C2 (h : Harness) (line : String)
    (hline : containsSub line Test.RUN_PASSED = true) :
    (h.fault = true → (Test.handle h line).state = Verdict.failed)
    ∧ (h.fault = false → containsSub line Test.RUN_FAILED = false →
        (Test.handle h line).state = Verdict.passed)
    ∧ (Test.handle (Test.handle Harness.init "boom ZEPHYR FATAL ERROR boom")
        "PROJECT EXECUTION SUCCESSFUL").state = Verdict.failed
    ∧ (Test.handle Harness.init "PROJECT EXECUTION SUCCESSFUL").state
        = Verdict.passed := by
  refine ⟨?_, ?_, by decide, by decide⟩
  · intro hf
    rw [testHandle_state]
    simp [hline, hf]
  · intro hf hRF
    rw [testHandle_state]
    simp [hline, hf, hRF]

/-- C2 witness: the success banner alone, with no prior fault, passes. -/
theorem claim_C2_witness :
    (Test.handle Harness.init "PROJECT EXECUTION SUCCESSFUL").state
      = Verdict.passed :=
  (claim_C2 Harness.init "PROJECT EXECUTION SUCCESSFUL"
    (by decide)).2.1 rfl (by decide)

/-- C10 counterexample: on a line that contains the fault marker, the
run-succeeded banner AND the run-failed banner, handled with
`faultDetected` still false, the verdict is failed, not passed. -/
theorem claim_C10_cex :
    containsSub
        "ZEPHYR FATAL ERROR PROJECT EXECUTION SUCCESSFUL PROJECT EXECUTION FAILED"
        Harness.FAULT = true
    ∧ containsSub
        "ZEPHYR FATAL ERROR PROJECT EXECUTION SUCCESSFUL PROJECT EXECUTION FAILED"
        Test.RUN_PASSED = true
    ∧ Harness.init.fault = false
    ∧ (Test.handle Harness.init
        "ZEPHYR FATAL ERROR PROJECT EXECUTION SUCCESSFUL PROJECT EXECUTION FAILED").state
        = Verdict.failed := by decide

/-- C10 (amended): a fault marker on the same line as the run-succeeded
banner does not veto the success: with the fault policy active,
`faultDetected` still false and no run-failed banner on the line, such a
line leaves the verdict passed while setting `faultDetected` true, because
the fault scan runs after the banner checks within one handle call. -/
theorem claim_C10 (h : Harness) (line : String)
    (hfa : containsSub line Harness.FAULT = true)
    (hrp : containsSub line Test.RUN_PASSED = true)
    (hrf : containsSub line Test.RUN_FAILED = false)
    (hf : h.fault = false) (hff : h.fail_on_fault = true) :
    (Test.handle h line).state = Verdict.passed
    ∧ (Test.handle h line).fault = true
    ∧ (Test.handle Harness.init
        "ZEPHYR FATAL ERROR with PROJECT EXECUTION SUCCESSFUL").state
        = Verdict.passed
    ∧ (Test.handle Harness.init
        "ZEPHYR FATAL ERROR with PROJECT EXECUTION SUCCESSFUL").fault = true := by
  refine ⟨?_, ?_, by decide, by decide⟩
  · rw [testHandle_state]
    simp [hrp, hrf, hf]
  · rw [testHandle_fault]
    simp [hfa, hff]

/-- C10 witness: concrete line with both the fault marker and the success
banner, handled from the initial state. -/
theorem claim_C10_witness :
    (Test.handle Harness.init
        "ZEPHYR FATAL ERROR PROJECT EXECUTION SUCCESSFUL").state
      = Verdict.passed :=
  (claim_C10 Harness.init "ZEPHYR FATAL ERROR PROJECT EXECUTION SUCCESSFUL"
    (by decide) (by decide) (by decide) rfl rfl).1

/-- C1 counterexample: a failed verdict DOES revert — after the run-failed
banner the structured matcher is failed, and a later success banner with no
fault recorded flips it back to passed. -/
theorem claim_C1_cex :
    (Test.handle Harness.init "PROJECT EXECUTION FAILED").state = Verdict.failed
    ∧ (Test.handle (Test.handle Harness.init "PROJECT EXECUTION FAILED")
        "PROJECT EXECUTION SUCCESSFUL").state = Verdict.passed := by decide

/-- C1 (amended): the verdict never returns to running in either matcher;
the console matcher is fully monotonic (passed stays passed, failed is
never produced); in the structured matcher a passed verdict becomes failed
only via the fault-veto on a success banner or via the run-failed banner,
and a failed verdict reverts to passed only via a later success-banner line
that carries no run-failed banner while no fault is recorded. -/
theorem claim_C1 (μ : String → String → Bool) (h : Harness) (line : String) :
    ((Console.handle μ h line).state = Verdict.running → h.state = Verdict.running)
    ∧ (h.state = Verdict.passed → (Console.handle μ h line).state = Verdict.passed)
    ∧ ((Console.handle μ h line).state = Verdict.failed → h.state = Verdict.failed)
    ∧ ((Test.handle h line).state = Verdict.running → h.state = Verdict.running)
    ∧ (h.state = Verdict.passed → (Test.handle h line).state = Verdict.failed →
        ((containsSub line Test.RUN_PASSED = true ∧ h.fault = true)
          ∨ containsSub line Test.RUN_FAILED = true))
    ∧ (h.state = Verdict.failed → (Test.handle h line).state = Verdict.passed →
        (containsSub line Test.RUN_PASSED = true
          ∧ containsSub line Test.RUN_FAILED = false
          ∧ h.fault = false)) := by
  have hcs := consoleStep_state_cases μ h line
  refine ⟨?_, ?_, ?_, ?_, ?_, ?_⟩
  · intro hr
    rw [consoleHandle_state] at hr
    rcases hcs with hc | hc <;> simp_all
  · intro hp
    rw [consoleHandle_state]
    rcases hcs with hc | hc <;> simp_all
  · intro hfl
    rw [consoleHandle_state] at hfl
    rcases hcs with hc | hc <;> simp_all
  · intro hr
    rw [testHandle_state] at hr
    by_cases hRF : containsSub line Test.RUN_FAILED = true
    · simp [hRF] at hr
    · by_cases hRP : containsSub line Test.RUN_PASSED = true
      · by_cases hF : h.fault = true <;> simp_all
      · simp_all
  · intro hp hfl
    rw [testHandle_state] at hfl
    by_cases hRF : containsSub line Test.RUN_FAILED = true
    · exact Or.inr hRF
    · by_cases hRP : containsSub line Test.RUN_PASSED = true
      · by_cases hF : h.fault = true
        · exact Or.inl ⟨hRP, hF⟩
        · simp_all
      · simp_all
  · intro hfl hp
    rw [testHandle_state] at hp
    by_cases hRF : containsSub line Test.RUN_FAILED = true
    · simp [hRF] at hp
    · by_cases hRP : containsSub line Test.RUN_PASSED = true
      · by_cases hF : h.fault = true
        · simp_all
        · exact ⟨hRP, by simpa using hRF, by simpa using hF⟩
      · simp_all

/-- C1 witness: a passed console harness stays passed on a further line. -/
theorem claim_C1_witness :
    (Console.handle litMatch { Harness.init with state := Verdict.passed }
        "any later line").state = Verdict.passed :=
  (claim_C1 litMatch { Harness.init with state := Verdict.passed }
    "any later line").2.1 rfl

/-- C3: in console ordered multi-line mode, a line matching the pattern at
the cursor advances the cursor by one, and the verdict becomes passed
exactly when the cursor reaches the pattern count; a line that does not
match the cursor's pattern (in particular one matching only a later
pattern) leaves cursor and verdict unchanged; with patterns `[A, B]`,
feeding `A` then `B` passes, while `B` first changes nothing. -/
theorem claim_C3 (μ : String → String → Bool) (h : Harness) (line : String)
    (ht : h.typ = some "multi_line") (ho : h.ordered = true)
    (hlt : h.next_pattern < h.patterns.length) :
    (μ (h.patterns.getD h.next_pattern "") line = true →
      (Console.handle μ h line).next_pattern = h.next_pattern + 1
      ∧ (h.state = Verdict.running →
          ((Console.handle μ h line).state = Verdict.passed
            ↔ h.next_pattern + 1 = h.patterns.length)))
    ∧ (μ (h.patterns.getD h.next_pattern "") line = false →
      (Console.handle μ h line).next_pattern = h.next_pattern
      ∧ (Console.handle μ h line).state = h.state)
    ∧ (Console.handle litMatch (Console.handle litMatch hOrderedAB "A") "B").state
        = Verdict.passed
    ∧ (Console.handle litMatch hOrderedAB "B").next_pattern = 0
    ∧ (Console.handle litMatch hOrderedAB "B").state = Verdict.running := by
  have hstep := consoleStep_multi_ordered μ h line ht ho
  refine ⟨?_, ?_, by decide, by decide, by decide⟩
  · intro hμ
    have hcond : (decide (h.next_pattern < h.patterns.length)
        && μ (h.patterns.getD h.next_pattern "") line) = true := by
      rw [hμ]
      simp [hlt]
    rw [consoleHandle_next_pattern, consoleHandle_state, hstep, if_pos hcond]
    by_cases heq : h.next_pattern + 1 = h.patterns.length
    · have hge : h.next_pattern + 1 ≥ h.patterns.length := Nat.le_of_eq heq.symm
      rw [if_pos hge]
      exact ⟨rfl, fun _ => by simp [heq]⟩
    · have hlt2 : h.next_pattern + 1 < h.patterns.length :=
        Nat.lt_of_le_of_ne (Nat.succ_le_of_lt hlt) heq
      rw [if_neg (Nat.not_le_of_lt hlt2)]
      refine ⟨rfl, fun hrun => ?_⟩
      simp [hrun, heq]
  · intro hμ
    have hcond : ¬ ((decide (h.next_pattern < h.patterns.length)
        && μ (h.patterns.getD h.next_pattern "") line) = true) := by
      rw [hμ]
      simp
    rw [consoleHandle_next_pattern, consoleHandle_state, hstep, if_neg hcond]
    exact ⟨rfl, rfl⟩

/-- C3 witness: in the two-pattern ordered harness a line matching the
first pattern advances the cursor from 0 to 1. -/
theorem claim_C3_witness :
    (Console.handle litMatch hOrderedAB "A").next_pattern
      = hOrderedAB.next_pattern + 1 :=
  ((claim_C3 litMatch hOrderedAB "A" rfl rfl (by decide)).1 (by decide)).1

/-- C8: with the `ignore_faults` tag present at configure time,
`fail_on_fault` is forced false, and then over any sequence of handled
lines (in either matcher) the fault flag stays false — no fault-marker line
ever sets it — and the fault flag never influences the verdict: with the
flag false, the structured verdict is decided by the banners alone. -/
theorem claim_C8 (μ : String → String → Bool) (h0 h : Harness) (inst : TestInstance)
    (lines : List String) (line : String)
    (htag : "ignore_faults" ∈ inst.tags)
    (hff : h.fail_on_fault = false) (hf : h.fault = false) :
    (Harness.configure h0 inst).fail_on_fault = false
    ∧ (List.foldl (Console.handle μ) h lines).fault = false
    ∧ (List.foldl Test.handle h lines).fault = false
    ∧ (Test.handle h line).state
        = (if containsSub line Test.RUN_FAILED then Verdict.failed
           else if containsSub line Test.RUN_PASSED then Verdict.passed
           else h.state) := by
  refine ⟨?_, foldl_console_fault_off μ lines h hff hf,
    foldl_test_fault_off lines h hff hf, ?_⟩
  · cases hcfg : inst.harness_config <;> simp [Harness.configure, htag, hcfg]
  · rw [testHandle_state]
    simp [hf]

/-- C8 witness: a fault-marker line does not set the flag when faults are
ignored. -/
theorem claim_C8_witness :
    (List.foldl Test.handle { Harness.init with fail_on_fault := false }
        ["boot", "ZEPHYR FATAL ERROR hit", "tail"]).fault = false :=
  (claim_C8 litMatch Harness.init { Harness.init with fail_on_fault := false }
    ⟨"t", ["ignore_faults"], none⟩ ["boot", "ZEPHYR FATAL ERROR hit", "tail"] "x"
    (by decide) rfl rfl).2.2.1

/-- One unordered-mode handle call, under the reachable-state invariants:
the verdict is untouched, the matched-key invariants are preserved, and the
number of recorded matches stays strictly below the regex-list length
whenever the regex list has a duplicate source string. -/
lemma console_unordered_dup_step (μ : String → String → Bool) (h : Harness) (line : String)
    (ht : h.typ = some "multi_line") (ho : h.ordered = false)
    (hnd : ¬ h.regex.Nodup)
    (hknd : (keys h.matched).Nodup)
    (hsub : ∀ k ∈ keys h.matched, k ∈ h.regex) :
    (Console.handle μ h line).state = h.state
    ∧ (keys (Console.handle μ h line).matched).Nodup
    ∧ (∀ k ∈ keys (Console.handle μ h line).matched, k ∈ h.regex)
    ∧ (Console.handle μ h line).matched.length < h.regex.length := by
  have hund : (keys (unorderedInsert μ line h.matched (h.patterns.zip h.regex))).Nodup :=
    ui_keys_nodup μ line _ _ hknd
  have husub : ∀ k ∈ keys (unorderedInsert μ line h.matched (h.patterns.zip h.regex)),
      k ∈ h.regex := by
    intro k hk
    rcases ui_keys_sub μ line _ _ k hk with h1 | h1
    · exact hsub k h1
    · rcases List.mem_map.mp h1 with ⟨pr, hpr2, hk2⟩
      rw [← hk2]
      exact (List.of_mem_zip hpr2).2
  have hlen : (unorderedInsert μ line h.matched (h.patterns.zip h.regex)).length
      < h.regex.length := by
    have hkeq : (unorderedInsert μ line h.matched (h.patterns.zip h.regex)).length
        = (keys (unorderedInsert μ line h.matched (h.patterns.zip h.regex))).length := by
      simp [keys]
    rw [hkeq]
    exact nodup_sub_length_lt hund (fun x hx => husub x hx) hnd
  have hne : ¬ ((unorderedInsert μ line h.matched (h.patterns.zip h.regex)).length
      = h.regex.length) := Nat.ne_of_lt hlen
  have hstep := consoleStep_multi_unordered μ h line ht ho
  refine ⟨?_, ?_, ?_, ?_⟩
  · rw [consoleHandle_state, hstep, if_neg hne]
  · rw [consoleHandle_matched, hstep, if_neg hne]
    exact hund
  · rw [consoleHandle_matched, hstep, if_neg hne]
    exact husub
  · rw [consoleHandle_matched, hstep, if_neg hne]
    exact hlen

/-- C9: in console unordered multi-line mode, when the configured regex
list contains the same source string twice, the verdict can never become
passed for any sequence of handled lines: matched patterns are keyed by
their source string, so the number of recorded matches never reaches the
length of the pattern list. -/
theorem claim_C9 (μ : String → String → Bool) (h : Harness) (lines : List String)
    (ht : h.typ = some "multi_line") (ho : h.ordered = false)
    (hnd : ¬ h.regex.Nodup)
    (hs : h.state = Verdict.running)
    (hknd : (keys h.matched).Nodup)
    (hsub : ∀ k ∈ keys h.matched, k ∈ h.regex) :
    (List.foldl (Console.handle μ) h lines).state = Verdict.running
    ∧ (List.foldl (Console.handle μ) h lines).matched.length < h.regex.length := by
  have main : ∀ ls : List String, ∀ g : Harness,
      g.typ = some "multi_line" → g.ordered = false → ¬ g.regex.Nodup →
      g.state = Verdict.running → (keys g.matched).Nodup →
      (∀ k ∈ keys g.matched, k ∈ g.regex) →
      (List.foldl (Console.handle μ) g ls).state = Verdict.running
      ∧ (List.foldl (Console.handle μ) g ls).matched.length < g.regex.length := by
    intro ls
    induction ls with
    | nil =>
        intro g _ _ gnd gs gknd gsub
        refine ⟨by simpa using gs, ?_⟩
        simp only [List.foldl_nil]
        have hkeq : g.matched.length = (keys g.matched).length := by simp [keys]
        rw [hkeq]
        exact nodup_sub_length_lt gknd (fun x hx => gsub x hx) gnd
    | cons line rest ih =>
        intro g gt go gnd gs gknd gsub
        obtain ⟨h1, h2, h3, h4⟩ :=
          console_unordered_dup_step μ g line gt go gnd gknd gsub
        simp only [List.foldl_cons]
        have hregex : (Console.handle μ g line).regex = g.regex := by simp
        have hres := ih (Console.handle μ g line) (by simp [gt]) (by simp [go])
          (by rw [hregex]; exact gnd) (by rw [h1]; exact gs) h2
          (by rw [hregex]; exact h3)
        rw [hregex] at hres
        exact hres
  exact main lines h ht ho hnd hs hknd hsub

/-- C9 witness: with the duplicated list `["A", "A"]`, lines matching `A`
repeatedly never produce a passed verdict. -/
theorem claim_C9_witness :
    (List.foldl (Console.handle litMatch) hDupAA ["A", "A", "B"]).state
      = Verdict.running :=
  (claim_C9 litMatch hDupAA ["A", "A", "B"] rfl rfl (by decide) rfl
    (by decide) (by decide)).1

/-- C4 counterexample: with the duplicated regex list `["A", "A"]`, after a
line matching `A` every configured pattern has matched at least once, yet
the verdict is not passed — the matches dictionary is keyed by the source
string, so its size (1) never reaches the list length (2). -/
theorem claim_C4_cex :
    (∀ r ∈ (Console.handle litMatch hDupAA "A").regex,
        r ∈ keys (Console.handle litMatch hDupAA "A").matched)
    ∧ (Console.handle litMatch hDupAA "A").state ≠ Verdict.passed := by decide

/-- C4 (amended): in console unordered multi-line mode with pairwise
distinct pattern source strings, each still-unmatched pattern matching the
line is recorded with that line stored as evidence, the first matching line
wins (a later line matching an already-matched pattern changes nothing),
and the verdict becomes passed exactly when every configured pattern has
matched at least once, in any arrival order. -/
theorem claim_C4 (μ : String → String → Bool) (h : Harness) (line : String)
    (ht : h.typ = some "multi_line") (ho : h.ordered = false)
    (hpr : h.patterns = h.regex)
    (hrnd : h.regex.Nodup)
    (hknd : (keys h.matched).Nodup)
    (hsub : ∀ k ∈ keys h.matched, k ∈ h.regex) :
    (∀ r ∈ h.regex, μ r line = true → ¬ r ∈ keys h.matched →
        List.lookup r (Console.handle μ h line).matched = some line)
    ∧ (∀ r ∈ keys h.matched,
        List.lookup r (Console.handle μ h line).matched = List.lookup r h.matched)
    ∧ (h.state = Verdict.running →
        ((Console.handle μ h line).state = Verdict.passed
          ↔ ∀ r ∈ h.regex, r ∈ keys (Console.handle μ h line).matched))
    ∧ ((Console.handle litMatch hUnAB "B").state = Verdict.running
        ∧ (Console.handle litMatch (Console.handle litMatch hUnAB "B") "A").state
            = Verdict.passed) := by
  have hstep := consoleStep_multi_unordered μ h line ht ho
  have hm : (Console.handle μ h line).matched
      = unorderedInsert μ line h.matched (h.patterns.zip h.regex) := by
    rw [consoleHandle_matched, hstep]
    split <;> rfl
  have hund : (keys (unorderedInsert μ line h.matched (h.patterns.zip h.regex))).Nodup :=
    ui_keys_nodup μ line _ _ hknd
  have husub : ∀ k ∈ keys (unorderedInsert μ line h.matched (h.patterns.zip h.regex)),
      k ∈ h.regex := by
    intro k hk
    rcases ui_keys_sub μ line _ _ k hk with h1 | h1
    · exact hsub k h1
    · rcases List.mem_map.mp h1 with ⟨pr, hpr2, hk2⟩
      rw [← hk2]
      exact (List.of_mem_zip hpr2).2
  have hkeq : (unorderedInsert μ line h.matched (h.patterns.zip h.regex)).length
      = (keys (unorderedInsert μ line h.matched (h.patterns.zip h.regex))).length := by
    simp [keys]
  have hiff := nodup_length_eq_iff hund hrnd (fun x hx => husub x hx)
  refine ⟨?_, ?_, ?_, by decide, by decide⟩
  · intro r hr hμ hnk
    rw [hm]
    refine ui_lookup_insert μ line _ _ r r ?_ hμ hnk
    rw [hpr]
    exact mem_zip_same hr
  · intro r hr
    rw [hm]
    exact ui_lookup_of_mem μ line _ _ r hr
  · intro hrun
    have hstate : (Console.handle μ h line).state
        = (if (unorderedInsert μ line h.matched (h.patterns.zip h.regex)).length
              = h.regex.length then Verdict.passed else h.state) := by
      rw [consoleHandle_state, hstep]
      split <;> rfl
    rw [hstate, hm]
    by_cases hc : (unorderedInsert μ line h.matched (h.patterns.zip h.regex)).length
        = h.regex.length
    · rw [if_pos hc]
      simp only [eq_self_iff_true, true_iff]
      exact hiff.mp (by rw [← hkeq]; exact hc)
    · rw [if_neg hc]
      constructor
      · intro hp
        rw [hrun] at hp
        exact absurd hp (by decide)
      · intro hall
        exfalso
        exact hc (by rw [hkeq]; exact hiff.mpr hall)

/-- C4 witness: in the unordered `[A, B]` harness a line matching `A` is
recorded with the line as evidence. -/
theorem claim_C4_witness :
    List.lookup "A" (Console.handle litMatch hUnAB "first A line").matched
      = some "first A line" :=
  ((claim_C4 litMatch hUnAB "first A line" rfl rfl rfl (by decide) (by decide)
    (by decide)).1) "A" (by decide) (by decide) (by decide)
